import Mathlib

/-!
Shallow embedding of the Leg1/Leg2 hedge-arbitrage strategy engine of the
polymarket-btc-bot repository (src/strategy.py, src/trader.py,
src/market_finder.py).

Conventions of the embedding:
* Python floats are modelled as rationals (ℚ).
* `time.monotonic()` readings taken inside a handler are passed in as the
  explicit parameter `now`; tick timestamps are the `ts` parameter, exactly
  as in the source.
* Python `Optional` values are `Option`; an operation that would raise an
  uncaught exception in the source (attribute access on `None`, arithmetic
  on `None`) is modelled by returning `none` from the stateful step.
* The mutable `Strategy` object is modelled by explicit state passing: each
  method takes the pre-state and returns the post-state (inside `Option`
  when the source method can raise).
* The awaited `trader.buy_market` collaborator is a function parameter of
  type `TraderFn`; the concrete `TraderStub.buy_market` of src/trader.py is
  given below and is used for claims about the shipped composition.
-/

/-- `State` enum of src/strategy.py. -/
inductive State
  | IDLE
  | WATCHING
  | LEG1_FILLED
  | LEG2_FILLED
  | RESET
deriving DecidableEq

/-- `MarketToken` dataclass of src/market_finder.py: token id, outcome label,
and the last known mid-price recorded at discovery time (default 0.0). -/
structure MarketToken where
  token_id : String
  outcome : String
  price : ℚ := 0
deriving DecidableEq

/-- `BTCRound` dataclass of src/market_finder.py. `end_time` / `start_time`
are unix timestamps, `none` when absent. -/
structure BTCRound where
  condition_id : String
  question : String
  up_token : MarketToken
  down_token : MarketToken
  end_time : Option ℚ := none
  start_time : Option ℚ := none
deriving DecidableEq

/-- `BTCRound.seconds_remaining`: `max(0, end_time - now)`, where a missing
end time yields `float("inf")`, modelled as `none`. -/
def BTCRound.seconds_remaining (r : BTCRound) (now : ℚ) : Option ℚ :=
  match r.end_time with
  | none => none
  | some t => some (max 0 (t - now))

/-- `BTCRound.is_active`: `seconds_remaining > 0` (the infinite case is
always positive). -/
def BTCRound.is_active (r : BTCRound) (now : ℚ) : Bool :=
  match r.end_time with
  | none => true
  | some t => decide (0 < max 0 (t - now))

/-- `PricePoint` dataclass of src/strategy.py. -/
structure PricePoint where
  price : ℚ
  ts : ℚ
deriving DecidableEq

/-- `Trade` dataclass of src/strategy.py (the wall-clock `timestamp` field
is omitted: it never feeds back into the engine).  `leg1_outcome` is kept
`Option` because the source stores `self._leg1_outcome` unchecked. -/
structure Trade where
  round_id : String
  leg1_outcome : Option String
  leg1_token_id : String
  leg1_price : ℚ
  leg1_shares : ℚ
  leg2_outcome : String
  leg2_token_id : String
  leg2_price : ℚ
  leg2_shares : ℚ
  combined_cost : ℚ
  expected_payout : ℚ
  profit : ℚ
deriving DecidableEq

/-- One entry of `Strategy.open_positions` (a dict literal in the source). -/
structure OpenPosition where
  leg : Nat
  outcome : String
  token_id : String
  price : Option ℚ
  shares : Option ℚ
deriving DecidableEq

/-- `OrderResult` dataclass of src/trader.py. -/
structure OrderResult where
  success : Bool
  order_id : Option String := none
  filled_price : Option ℚ := none
  filled_shares : Option ℚ := none
  error : Option String := none
deriving DecidableEq

/-- The `buy_market` collaborator: arguments are
token_id, outcome, shares, max_price. -/
def TraderFn : Type := String → String → ℚ → ℚ → OrderResult

/-- `TraderStub.buy_market` of src/trader.py: always succeeds, fills exactly
at `max_price` for exactly `shares`. -/
def TraderStub.buy_market : TraderFn := fun token_id outcome shares max_price =>
  { success := true
    order_id := some (("stub-") ++ token_id.take 6 ++ ("-") ++ outcome)
    filled_price := some max_price
    filled_shares := some shares
    error := none }

/-- The mutable fields of the `Strategy` object of src/strategy.py.
`price_history` models the `dict[str, deque[PricePoint]]` as an
insertion-ordered association list. -/
structure Strategy where
  state : State
  enabled : Bool
  current_round : Option BTCRound
  shares : ℚ
  hedge_sum : ℚ
  move_threshold : ℚ
  window_minutes : ℚ
  drop_window_sec : ℚ
  price_history : List (String × List PricePoint)
  leg1_outcome : Option String
  leg1_token : Option MarketToken
  leg1_entry_price : Option ℚ
  leg1_shares : Option ℚ
  leg2_token : Option MarketToken
  round_started_at : Option ℚ
  total_profit : ℚ
  total_cost : ℚ
  trade_history : List Trade
  open_positions : List OpenPosition
deriving DecidableEq

/-- `Strategy.__init__` with the defaults of src/config.py
(shares=10.0, hedge_sum=0.95, move_threshold=0.15, window_minutes=2.0,
drop_window_sec=3.0). -/
def Strategy.init : Strategy :=
  { state := State.IDLE
    enabled := false
    current_round := none
    shares := 10
    hedge_sum := 19/20
    move_threshold := 3/20
    window_minutes := 2
    drop_window_sec := 3
    price_history := []
    leg1_outcome := none
    leg1_token := none
    leg1_entry_price := none
    leg1_shares := none
    leg2_token := none
    round_started_at := none
    total_profit := 0
    total_cost := 0
    trade_history := []
    open_positions := [] }

/-- Dict read `self._price_history[token_id]`, defaulting to the fresh empty
deque the source inserts for an unseen key. -/
def historyLookup (h : List (String × List PricePoint)) (token_id : String) :
    List PricePoint :=
  match h.find? (fun p => p.1 = token_id) with
  | some p => p.2
  | none => []

/-- Dict write `self._price_history[token_id] = q`, preserving insertion
order of keys. -/
def historyUpdate (h : List (String × List PricePoint)) (token_id : String)
    (q : List PricePoint) : List (String × List PricePoint) :=
  if h.any (fun p => p.1 = token_id) then
    h.map (fun p => if p.1 = token_id then (p.1, q) else p)
  else
    h ++ [(token_id, q)]

/-- `Strategy._record_price`: append the sample, then eagerly pop from the
front every point older than `ts - (drop_window_sec + 1.0)`. -/
def Strategy.record_price (s : Strategy) (token_id : String) (price ts : ℚ) :
    Strategy :=
  let q := historyLookup s.price_history token_id
  let q := q ++ [{ price := price, ts := ts }]
  let cutoff := ts - (s.drop_window_sec + 1)
  let q := q.dropWhile (fun p => decide (p.ts < cutoff))
  { s with price_history := historyUpdate s.price_history token_id q }

/-- `Strategy._compute_drop`: drop over the last `drop_window_sec` seconds,
relative to the oldest in-window sample; `none` on insufficient data or a
zero oldest price; a rise yields `0.0`. -/
def Strategy.compute_drop (s : Strategy) (token_id : String) : Option ℚ :=
  let q := historyLookup s.price_history token_id
  if q.length < 2 then none
  else
    match q.getLast? with
    | none => none
    | some lastPt =>
      let cutoff := lastPt.ts - s.drop_window_sec
      match q.find? (fun point => decide (cutoff ≤ point.ts)) with
      | none => none
      | some oldest =>
        if oldest.price = 0 then none
        else
          let current_price := lastPt.price
          let drop := (oldest.price - current_price) / oldest.price
          if 0 < drop then some drop else some 0

/-- `Strategy._reset_round_state`: clear leg state, attach time and the
price history (leaves `state`, `enabled`, `current_round`, config, P&L and
`open_positions` untouched). -/
def Strategy.reset_round_state (s : Strategy) : Strategy :=
  { s with
    leg1_outcome := none
    leg1_token := none
    leg1_entry_price := none
    leg1_shares := none
    leg2_token := none
    round_started_at := none
    price_history := [] }

/-- `Strategy._reset_state`. -/
def Strategy.reset_state (s : Strategy) : Strategy :=
  { s.reset_round_state with state := State.IDLE, current_round := none }

/-- `Strategy.enable`. -/
def Strategy.enable (s : Strategy) : Strategy :=
  { s with enabled := true }

/-- `Strategy.disable`. -/
def Strategy.disable (s : Strategy) : Strategy :=
  { s with enabled := false }.reset_state

/-- `Strategy.attach_round`: set the round, clear the price history, record
the monotonic attach time and enter WATCHING.  (The source does not call
`_reset_round_state` here, so leg fields survive.) -/
def Strategy.attach_round (s : Strategy) (round_ : BTCRound) (now : ℚ) :
    Strategy :=
  { s with
    current_round := some round_
    price_history := []
    round_started_at := some now
    state := State.WATCHING }

/-- `Strategy._trigger_leg1`: optimistically flip to LEG1_FILLED, call the
trader with `max_price = token.price` (the round-snapshot field), revert to
WATCHING on failure, else record entry fields, the leg-2 target and an open
position.  Returns `none` for the AttributeError the source raises when
`current_round` is `None` on the success path. -/
def Strategy.trigger_leg1 (T : TraderFn) (s : Strategy) (token : MarketToken)
    (outcome : String) : Option Strategy :=
  let s1 := { s with state := State.LEG1_FILLED }
  let result := T token.token_id outcome s1.shares token.price
  if result.success = false then
    some { s1 with state := State.WATCHING }
  else
    match s1.current_round with
    | none => none
    | some round_ =>
      let leg2 := if outcome = ("UP") then round_.down_token else round_.up_token
      some { s1 with
        leg1_outcome := some outcome
        leg1_token := some token
        leg1_entry_price := result.filled_price
        leg1_shares := result.filled_shares
        leg2_token := some leg2
        open_positions := s1.open_positions ++
          [{ leg := 1
             outcome := outcome
             token_id := token.token_id
             price := result.filled_price
             shares := result.filled_shares }] }

/-- `Strategy._trigger_leg2`: call the trader for the opposite outcome with
the triggering opposite ask as ceiling; on failure keep the state; on
success append the completed `Trade`, update the running totals, drop the
leg-1 open position, set RESET and clear the per-round state.  `none` models
the exceptions the source raises when leg fields or the round are `None` on
the success path. -/
def Strategy.trigger_leg2 (T : TraderFn) (s : Strategy) (opposite_ask : ℚ) :
    Option Strategy :=
  match s.leg2_token with
  | none => none
  | some token =>
    let outcome := if s.leg1_outcome = some ("UP") then ("DOWN") else ("UP")
    let result := T token.token_id outcome s.shares opposite_ask
    if result.success = false then
      some s
    else
      match s.leg1_entry_price, s.leg1_shares,
            result.filled_price, result.filled_shares with
      | some l1p, some l1s, some fp, some fs =>
        let combined_cost := l1p * l1s + fp * fs
        let payout := l1s
        let profit := payout - combined_cost
        match s.current_round, s.leg1_token with
        | some round_, some l1tok =>
          let trade : Trade :=
            { round_id := round_.condition_id
              leg1_outcome := s.leg1_outcome
              leg1_token_id := l1tok.token_id
              leg1_price := l1p
              leg1_shares := l1s
              leg2_outcome := outcome
              leg2_token_id := token.token_id
              leg2_price := fp
              leg2_shares := fs
              combined_cost := combined_cost
              expected_payout := payout
              profit := profit }
          some (Strategy.reset_round_state
            { s with
              trade_history := s.trade_history ++ [trade]
              total_profit := s.total_profit + profit
              total_cost := s.total_cost + combined_cost
              open_positions := s.open_positions.filter (fun p => p.leg ≠ 1)
              state := State.RESET })
        | _, _ => none
      | _, _, _, _ => none

/-- `Strategy._handle_leg1_filled`: defensive no-op unless the leg-2 token
and a truthy (non-`None`, non-zero — Python truthiness) entry price are
recorded; react only to ticks of the opposite token; trigger leg 2 when
`leg1_entry + opposite_ask ≤ hedge_sum`. -/
def Strategy.handle_leg1_filled (T : TraderFn) (s : Strategy)
    (token_id : String) (price : ℚ) (_ts : ℚ) : Option Strategy :=
  match s.leg2_token, s.leg1_entry_price with
  | some leg2, some entry =>
    if entry = 0 then some s
    else if token_id ≠ leg2.token_id then some s
    else
      let opposite_ask := price
      let combined := entry + opposite_ask
      if combined ≤ s.hedge_sum then s.trigger_leg2 T opposite_ask
      else some s
  | _, _ => some s

/-- The `for token, outcome in [...]` loop body of
`Strategy._handle_watching`: first qualifying drop wins. -/
def Strategy.try_tokens (T : TraderFn) (s : Strategy) :
    List (MarketToken × String) → Option Strategy
  | [] => some s
  | (token, outcome) :: rest =>
    match s.compute_drop token.token_id with
    | none => s.try_tokens T rest
    | some drop =>
      if s.move_threshold ≤ drop then s.trigger_leg1 T token outcome
      else s.try_tokens T rest

/-- `Strategy._handle_watching`: no-op without a round; transition to IDLE
once more than `window_minutes` have elapsed since attach; otherwise scan
UP then DOWN for a qualifying drop.  `none` models the TypeError the source
raises when `_round_started_at` is `None`. -/
def Strategy.handle_watching (T : TraderFn) (now : ℚ) (s : Strategy)
    (_token_id : String) (_price : ℚ) (_ts : ℚ) : Option Strategy :=
  match s.current_round with
  | none => some s
  | some round_ =>
    match s.round_started_at with
    | none => none
    | some started =>
      let elapsed := now - started
      let window_sec := s.window_minutes * 60
      if window_sec < elapsed then
        some { s with state := State.IDLE }
      else
        s.try_tokens T [(round_.up_token, ("UP")), (round_.down_token, ("DOWN"))]

/-- `Strategy.on_price_update`: early return when disabled or IDLE; record
the price; dispatch on the state. -/
def Strategy.on_price_update (T : TraderFn) (now : ℚ) (s : Strategy)
    (token_id : String) (price ts : ℚ) : Option Strategy :=
  if s.enabled = false ∨ s.state = State.IDLE then some s
  else
    let s1 := s.record_price token_id price ts
    if s1.state = State.WATCHING then
      s1.handle_watching T now token_id price ts
    else if s1.state = State.LEG1_FILLED then
      s1.handle_leg1_filled T token_id price ts
    else
      some s1

/-- Python string truthiness for `a or b`: `None` and `""` fall through. -/
def pyOrStr (a : Option String) (b : String) : String :=
  match a with
  | some v => if v = ("") then b else v
  | none => b

/-- Python numeric truthiness for `a or b`: `None` and `0.0` fall through. -/
def pyOrQ (a : Option ℚ) (b : ℚ) : ℚ :=
  match a with
  | some v => if v = 0 then b else v
  | none => b

/-- Python `needle in hay` substring test. -/
def strContains (hay needle : String) : Bool :=
  (hay.splitOn needle).length > 1

/-- Maximal word-character runs of a lowered string: the word-boundary
regexes `\b(btc|bitcoin)\b`, `\bup\b`, `\bdown\b` of src/market_finder.py
match exactly when the keyword is one of these runs. -/
def wordsOf (s : String) : List String :=
  (s.toLower.split (fun c => !(c.isAlphanum || c == '_'))).filter
    (fun w => w ≠ (""))

/-- One entry of a Gamma market's `tokens` list, as read by
`_extract_tokens` (absent dict keys are `none`). -/
structure RawToken where
  outcome : Option String := none
  winner : Option String := none
  token_id : Option String := none
  tokenId : Option String := none
  price : Option ℚ := none
deriving DecidableEq

/-- A raw Gamma market dict, restricted to the keys src/market_finder.py
reads.  The ISO-8601 timestamp parsing of `_parse_end_time` /
`_parse_start_time` is abstracted: `end_date` / `start_date` hold the
already-parsed unix timestamp, `none` standing for an absent field or a
parse failure (both yield `None` in the source). -/
structure RawMarket where
  question : Option String := none
  condition_id : Option String := none
  conditionId : Option String := none
  id : Option String := none
  tokens : List RawToken := []
  clob_token_ids : List String := []
  outcomes : List String := []
  end_date : Option ℚ := none
  start_date : Option ℚ := none
deriving DecidableEq

/-- `_parse_end_time` (ISO parsing abstracted, see `RawMarket`). -/
def parse_end_time (m : RawMarket) : Option ℚ := m.end_date

/-- `_parse_start_time` (ISO parsing abstracted, see `RawMarket`). -/
def parse_start_time (m : RawMarket) : Option ℚ := m.start_date

/-- `_is_btc_updown_market`: the question must contain a BTC keyword and an
up/down keyword, each as a whole word. -/
def is_btc_updown_market (market : RawMarket) : Bool :=
  let question := pyOrStr market.question ("")
  let ws := wordsOf question
  (ws.contains ("btc") || ws.contains ("bitcoin")) &&
    (ws.contains ("up") || ws.contains ("down"))

/-- Loop body of the first half of `_extract_tokens`: classify one entry of
the `tokens` list, later matches overwriting earlier ones. -/
def extractStep (acc : Option MarketToken × Option MarketToken)
    (tok : RawToken) : Option MarketToken × Option MarketToken :=
  let outcome := (pyOrStr tok.outcome (pyOrStr tok.winner (""))).toUpper
  let tid := pyOrStr tok.token_id (pyOrStr tok.tokenId (""))
  let price := pyOrQ tok.price 0
  if strContains outcome ("UP") || outcome = ("YES") then
    (some { token_id := tid, outcome := ("UP"), price := price }, acc.2)
  else if strContains outcome ("DOWN") || outcome = ("NO") then
    (acc.1, some { token_id := tid, outcome := ("DOWN"), price := price })
  else acc

/-- Loop body of the `clob_token_ids`/`outcomes` fallback of
`_extract_tokens` (token price left at the dataclass default 0.0). -/
def extractFallbackStep (acc : Option MarketToken × Option MarketToken)
    (p : String × String) : Option MarketToken × Option MarketToken :=
  let o := p.2.toUpper
  if strContains o ("UP") || o = ("YES") then
    (some { token_id := p.1, outcome := ("UP") }, acc.2)
  else if strContains o ("DOWN") || o = ("NO") then
    (acc.1, some { token_id := p.1, outcome := ("DOWN") })
  else acc

/-- `_extract_tokens`: scan the `tokens` list; if neither side was found,
fall back to pairing `clob_token_ids` with `outcomes`. -/
def extract_tokens (market : RawMarket) :
    Option MarketToken × Option MarketToken :=
  let pair := market.tokens.foldl extractStep (none, none)
  match pair with
  | (none, none) =>
    (market.clob_token_ids.zip market.outcomes).foldl extractFallbackStep
      (none, none)
  | _ => pair

/-- The grouping key of `fetch_active_rounds`:
`m.get("condition_id") or m.get("conditionId") or m.get("id") or ""`. -/
def groupKey (m : RawMarket) : String :=
  pyOrStr m.condition_id (pyOrStr m.conditionId (pyOrStr m.id ("")))

/-- The `by_condition` grouping of `fetch_active_rounds`: a dict built with
`setdefault(...).append(...)`, keys in first-insertion order, markets with
an empty key skipped. -/
def groupByCondition (ms : List RawMarket) :
    List (String × List RawMarket) :=
  ms.foldl (fun acc m =>
    let cid := groupKey m
    if cid = ("") then acc
    else if acc.any (fun p => p.1 = cid) then
      acc.map (fun p => if p.1 = cid then (p.1, p.2 ++ [m]) else p)
    else acc ++ [(cid, [m])]) []

/-- The per-group loop of `fetch_active_rounds`: take the first market of
the group with both tokens extractable, build the round, and keep it only
while still active (the loop breaks after that first market either way). -/
def pair_round (now : ℚ) (cid : String) (markets : List RawMarket) :
    Option BTCRound :=
  match markets.find?
      (fun m => (extract_tokens m).1.isSome && (extract_tokens m).2.isSome) with
  | none => none
  | some m =>
    match (extract_tokens m).1, (extract_tokens m).2 with
    | some up_tok, some down_tok =>
      let r : BTCRound :=
        { condition_id := cid
          question := m.question.getD ("")
          up_token := up_tok
          down_token := down_tok
          end_time := parse_end_time m
          start_time := parse_start_time m }
      if r.is_active now then some r else none
    | _, _ => none

/-- The sort key `lambda r: r.end_time or float("inf")`: a missing — or,
by Python truthiness, zero — end time sorts as infinity. -/
def sortKey (r : BTCRound) : WithTop ℚ :=
  match r.end_time with
  | none => ⊤
  | some t => if t = 0 then ⊤ else (t : WithTop ℚ)

/-- The comparison used to sort rounds soonest-ending first. -/
def roundLE (a b : BTCRound) : Prop := sortKey a ≤ sortKey b

instance : DecidableRel roundLE := fun a b =>
  inferInstanceAs (Decidable (sortKey a ≤ sortKey b))

instance : IsTotal BTCRound roundLE := ⟨fun a b => le_total (sortKey a) (sortKey b)⟩

instance : IsTrans BTCRound roundLE := ⟨fun _ _ _ h h2 => le_trans h h2⟩

/-- One iteration of the `for cid, markets in by_condition.items()` loop of
`fetch_active_rounds`: append the group's round when one was paired. -/
def roundsFoldStep (now : ℚ) (acc : List BTCRound)
    (p : String × List RawMarket) : List BTCRound :=
  match pair_round now p.1 p.2 with
  | some r => acc ++ [r]
  | none => acc

/-- `MarketFinder.fetch_active_rounds`, with the HTTP pagination loop
abstracted as its outcome: `.error` when the `try` block caught a
network/parse exception (the source then returns `[]`), `.ok raw_markets`
when it accumulated the raw market dicts.  Filters BTC up/down markets,
groups them by condition key, pairs one round per group, keeps active
rounds and sorts them soonest-ending first (`list.sort` is stable,
as is insertion sort). -/
def fetch_active_rounds (fetched : Except String (List RawMarket)) (now : ℚ) :
    List BTCRound :=
  match fetched with
  | Except.error _ => []
  | Except.ok raw_markets =>
    let btc_markets := raw_markets.filter is_btc_updown_market
    let by_condition := groupByCondition btc_markets
    let rounds := by_condition.foldl (roundsFoldStep now) []
    rounds.insertionSort roundLE

/-- A concrete discovered round used in the concrete evaluations below.  Its
token `price` fields are the discovery-time snapshot prices. -/
def sampleRound : BTCRound :=
  { condition_id := ("cond-1")
    question := ("Bitcoin Up or Down - 5 min")
    up_token := { token_id := ("tokU"), outcome := ("UP"), price := 7/10 }
    down_token := { token_id := ("tokD"), outcome := ("DOWN"), price := 3/5 }
    end_time := some 1000
    start_time := some 700 }

/-- An engine that has filled leg 1 (UP at 0.4 for the configured 10 shares)
and is waiting for the hedge condition on the DOWN token. -/
def leg1FilledStrategy : Strategy :=
  { Strategy.init with
    enabled := true
    state := State.LEG1_FILLED
    current_round := some sampleRound
    leg1_outcome := some ("UP")
    leg1_token := some sampleRound.up_token
    leg1_entry_price := some (2/5)
    leg1_shares := some 10
    leg2_token := some sampleRound.down_token
    round_started_at := some 0
    open_positions :=
      [{ leg := 1
         outcome := ("UP")
         token_id := ("tokU")
         price := some (2/5)
         shares := some 10 }] }

/-- An enabled engine freshly attached to `sampleRound` at monotonic time 0. -/
def watchingStrategy : Strategy :=
  { Strategy.init with
    enabled := true
    state := State.WATCHING
    current_round := some sampleRound
    round_started_at := some 0 }

/-- A watching engine whose recorded tick history for the UP token ends at
price 0.4, while the round snapshot still says `price = 0.7`. -/
def c7Strategy : Strategy :=
  { Strategy.init with
    enabled := true
    state := State.WATCHING
    current_round := some sampleRound
    round_started_at := some 0
    price_history :=
      [(("tokU"), [{ price := 3/5, ts := 0 }, { price := 2/5, ts := 1 }])] }

/-- A trader whose orders always fail. -/
def failTrader : TraderFn := fun _ _ _ _ =>
  { success := false, error := some ("insufficient balance") }

/-- A trader that agrees with the stub except at ceiling 0. -/
def snapTrader : TraderFn := fun token_id outcome shares max_price =>
  if max_price = 0 then { success := false, error := some ("zero ceiling") }
  else TraderStub.buy_market token_id outcome shares max_price

/-- The trade completed when `leg1FilledStrategy` processes a DOWN tick at
price 0.5 through the stub trader. -/
def sampleTrade : Trade :=
  { round_id := ("cond-1")
    leg1_outcome := some ("UP")
    leg1_token_id := ("tokU")
    leg1_price := 2/5
    leg1_shares := 10
    leg2_outcome := ("DOWN")
    leg2_token_id := ("tokD")
    leg2_price := 1/2
    leg2_shares := 10
    combined_cost := 9
    expected_payout := 10
    profit := 1 }

/-- The engine state after `leg1FilledStrategy` processes a DOWN tick at
price 0.5 (which meets the hedge condition 0.4 + 0.5 ≤ 0.95). -/
def sampleTickResult : Strategy :=
  Strategy.reset_round_state
    { leg1FilledStrategy with
      price_history := [(("tokD"), [{ price := 1/2, ts := 10 }])]
      trade_history := [sampleTrade]
      total_profit := 1
      total_cost := 9
      open_positions := []
      state := State.RESET }

/-- The engine state after `c7Strategy` triggers leg 1 on the UP token via
the stub trader: the recorded entry price is the snapshot price 0.7, not
the last recorded tick price 0.4. -/
def c7Result : Strategy :=
  { c7Strategy with
    state := State.LEG1_FILLED
    leg1_outcome := some ("UP")
    leg1_token := some sampleRound.up_token
    leg1_entry_price := some (7/10)
    leg1_shares := some 10
    leg2_token := some sampleRound.down_token
    open_positions :=
      [{ leg := 1
         outcome := ("UP")
         token_id := ("tokU")
         price := some (7/10)
         shares := some 10 }] }

/-- Two raw BTC up/down markets, the second ending sooner. -/
def sampleMarkets : List RawMarket :=
  [ { question := some ("Bitcoin Up or Down - 5 min - A")
      condition_id := some ("c1")
      tokens := [ { outcome := some ("Up"), token_id := some ("t1u") },
                  { outcome := some ("Down"), token_id := some ("t1d") } ]
      end_date := some 1000 },
    { question := some ("Bitcoin Up or Down - 5 min - B")
      condition_id := some ("c2")
      tokens := [ { outcome := some ("Up"), token_id := some ("t2u") },
                  { outcome := some ("Down"), token_id := some ("t2d") } ]
      end_date := some 500 } ]


theorem record_price_state (s : Strategy) (tid : String) (p ts : ℚ) :
    (s.record_price tid p ts).state = s.state := rfl

theorem record_price_trade_history (s : Strategy) (tid : String) (p ts : ℚ) :
    (s.record_price tid p ts).trade_history = s.trade_history := rfl

theorem record_price_current_round (s : Strategy) (tid : String) (p ts : ℚ) :
    (s.record_price tid p ts).current_round = s.current_round := rfl

theorem record_price_round_started_at (s : Strategy) (tid : String) (p ts : ℚ) :
    (s.record_price tid p ts).round_started_at = s.round_started_at := rfl

theorem record_price_shares (s : Strategy) (tid : String) (p ts : ℚ) :
    (s.record_price tid p ts).shares = s.shares := rfl

theorem record_price_hedge_sum (s : Strategy) (tid : String) (p ts : ℚ) :
    (s.record_price tid p ts).hedge_sum = s.hedge_sum := rfl

theorem record_price_window_minutes (s : Strategy) (tid : String) (p ts : ℚ) :
    (s.record_price tid p ts).window_minutes = s.window_minutes := rfl

theorem record_price_leg1_shares (s : Strategy) (tid : String) (p ts : ℚ) :
    (s.record_price tid p ts).leg1_shares = s.leg1_shares := rfl

/-- Leg-1 execution never appends to the trade history, for any trader. -/
theorem trigger_leg1_trade_history (T : TraderFn) (s : Strategy)
    (token : MarketToken) (outcome : String) (s' : Strategy)
    (h : s.trigger_leg1 T token outcome = some s') :
    s'.trade_history = s.trade_history := by
  simp only [Strategy.trigger_leg1] at h
  split at h
  · have hx := Option.some.inj h
    subst hx
    rfl
  · rcases hr : s.current_round with _ | round_ <;> simp only [hr] at h
    · exact Option.noConfusion h
    · have hx := Option.some.inj h
      subst hx
      rfl

/-- The drop-scan loop never appends to the trade history. -/
theorem try_tokens_trade_history (T : TraderFn) (s : Strategy)
    (l : List (MarketToken × String)) (s' : Strategy)
    (h : s.try_tokens T l = some s') :
    s'.trade_history = s.trade_history := by
  induction l with
  | nil =>
    simp only [Strategy.try_tokens] at h
    have hx := Option.some.inj h
    subst hx
    rfl
  | cons hd tl ih =>
    rcases hd with ⟨token, outcome⟩
    simp only [Strategy.try_tokens] at h
    rcases hdrop : s.compute_drop token.token_id with _ | d <;>
      simp only [hdrop] at h
    · exact ih h
    · split at h
      · exact trigger_leg1_trade_history T s token outcome s' h
      · exact ih h

/-- The WATCHING handler never appends to the trade history. -/
theorem handle_watching_trade_history (T : TraderFn) (now : ℚ) (s : Strategy)
    (a : String) (b c : ℚ) (s' : Strategy)
    (h : s.handle_watching T now a b c = some s') :
    s'.trade_history = s.trade_history := by
  simp only [Strategy.handle_watching] at h
  rcases hr : s.current_round with _ | round_ <;> simp only [hr] at h
  · have hx := Option.some.inj h
    subst hx
    rfl
  · rcases hst : s.round_started_at with _ | started <;> simp only [hst] at h
    · exact Option.noConfusion h
    · split at h
      · have hx := Option.some.inj h
        subst hx
        rfl
      · exact try_tokens_trade_history T s _ s' h

/-- With the stub trader, a successful leg-2 trigger appends exactly one
trade whose accounting fields are built from the recorded leg-1 entry
price/shares, the triggering opposite ask and the configured share count. -/
theorem trigger_leg2_stub_spec (s : Strategy) (ask : ℚ) (s' : Strategy)
    (h : s.trigger_leg2 TraderStub.buy_market ask = some s') :
    ∃ l1p l1s tr, s.leg1_entry_price = some l1p ∧ s.leg1_shares = some l1s ∧
      s'.trade_history = s.trade_history ++ [tr] ∧
      tr.leg1_price = l1p ∧ tr.leg1_shares = l1s ∧
      tr.leg2_price = ask ∧ tr.leg2_shares = s.shares ∧
      tr.combined_cost = l1p * l1s + ask * s.shares ∧
      tr.expected_payout = l1s ∧
      tr.profit = l1s - (l1p * l1s + ask * s.shares) := by
  simp only [Strategy.trigger_leg2, TraderStub.buy_market] at h
  rcases h2 : s.leg2_token with _ | token <;> simp only [h2] at h
  · exact Option.noConfusion h
  · rcases h3 : s.leg1_entry_price with _ | l1p <;> simp only [h3] at h
    · exact Option.noConfusion h
    · rcases h4 : s.leg1_shares with _ | l1s <;> simp only [h4] at h
      · exact Option.noConfusion h
      · rcases h5 : s.current_round with _ | round_ <;> simp only [h5] at h
        · exact Option.noConfusion h
        · rcases h6 : s.leg1_token with _ | l1tok <;> simp only [h6] at h
          · exact Option.noConfusion h
          · have hx := Option.some.inj h
            subst hx
            exact ⟨l1p, l1s, _, rfl, rfl, rfl, rfl, rfl, rfl, rfl, rfl, rfl, rfl⟩

/-- The LEG1_FILLED handler either leaves the state unchanged or fires leg 2
on the opposite token with the hedge condition satisfied. -/
theorem handle_leg1_filled_cases (T : TraderFn) (s : Strategy)
    (tid : String) (price ts : ℚ) (s' : Strategy)
    (h : s.handle_leg1_filled T tid price ts = some s') :
    s' = s ∨ ∃ leg2 entry, s.leg2_token = some leg2 ∧
      s.leg1_entry_price = some entry ∧ entry + price ≤ s.hedge_sum ∧
      s.trigger_leg2 T price = some s' := by
  simp only [Strategy.handle_leg1_filled] at h
  rcases h2 : s.leg2_token with _ | leg2 <;> simp only [h2] at h
  · exact Or.inl (Option.some.inj h).symm
  · rcases h3 : s.leg1_entry_price with _ | entry <;> simp only [h3] at h
    · exact Or.inl (Option.some.inj h).symm
    · split at h
      · exact Or.inl (Option.some.inj h).symm
      · split at h
        · exact Or.inl (Option.some.inj h).symm
        · split at h
          · right
            exact ⟨leg2, entry, rfl, rfl, by assumption, h⟩
          · exact Or.inl (Option.some.inj h).symm

/-- C1: every trade completed by a price update through the stub trader has
non-negative profit whenever the configured hedge_sum is below 1. -/
theorem completed_trade_profit_nonneg
    (s : Strategy) (tid : String) (price ts now : ℚ) (s' : Strategy)
    (hh : s.hedge_sum < 1) (hs : 0 ≤ s.shares)
    (hl : s.leg1_shares = some s.shares)
    (h : Strategy.on_price_update TraderStub.buy_market now s tid price ts = some s') :
    ∀ t ∈ s'.trade_history, t ∈ s.trade_history ∨ 0 ≤ t.profit := by
  intro t ht
  simp only [Strategy.on_price_update] at h
  split at h
  · have hx := Option.some.inj h
    subst hx
    exact Or.inl ht
  · split at h
    · have he := handle_watching_trade_history _ _ _ _ _ _ _ h
      rw [he, record_price_trade_history] at ht
      exact Or.inl ht
    · split at h
      · rcases handle_leg1_filled_cases _ _ _ _ _ _ h with heq | ⟨leg2, entry, hl2, hent, hcomb, htrig⟩
        · subst heq
          rw [record_price_trade_history] at ht
          exact Or.inl ht
        · obtain ⟨l1p, l1s, tr, hp, hsh, hth, f1, f2, f3, f4, f5, f6, f7⟩ :=
            trigger_leg2_stub_spec _ _ _ htrig
          rw [hth, record_price_trade_history] at ht
          rcases List.mem_append.mp ht with hold | hnew
          · exact Or.inl hold
          · right
            have htr : t = tr := by simpa using hnew
            subst htr
            have hpe : entry = l1p := by
              have := hent.symm.trans hp
              exact Option.some.inj this
            have hls : l1s = s.shares := by
              rw [record_price_leg1_shares, hl] at hsh
              exact (Option.some.inj hsh).symm
            have hcomb2 : entry + price ≤ s.hedge_sum := by
              rw [record_price_hedge_sum] at hcomb
              exact hcomb
            rw [f7, record_price_shares, hls, ← hpe]
            nlinarith [mul_nonneg hs (by linarith : (0:ℚ) ≤ 1 - (entry + price))]
      · have hx := Option.some.inj h
        subst hx
        rw [record_price_trade_history] at ht
        exact Or.inl ht

/-- C2: every trade appended by a price update through the stub trader
satisfies the accounting identities of `_trigger_leg2`. -/
theorem completed_trade_accounting
    (s : Strategy) (tid : String) (price ts now : ℚ) (s' : Strategy)
    (h : Strategy.on_price_update TraderStub.buy_market now s tid price ts = some s') :
    ∀ t ∈ s'.trade_history, t ∈ s.trade_history ∨
      (t.combined_cost = t.leg1_price * t.leg1_shares + t.leg2_price * t.leg2_shares ∧
       t.expected_payout = t.leg1_shares ∧
       t.profit = t.expected_payout - t.combined_cost ∧
       t.leg2_shares = s.shares ∧
       (t.leg1_shares = t.leg2_shares → t.profit = s.shares - t.combined_cost)) := by
  intro t ht
  simp only [Strategy.on_price_update] at h
  split at h
  · have hx := Option.some.inj h
    subst hx
    exact Or.inl ht
  · split at h
    · have he := handle_watching_trade_history _ _ _ _ _ _ _ h
      rw [he, record_price_trade_history] at ht
      exact Or.inl ht
    · split at h
      · rcases handle_leg1_filled_cases _ _ _ _ _ _ h with heq | ⟨leg2, entry, hl2, hent, hcomb, htrig⟩
        · subst heq
          rw [record_price_trade_history] at ht
          exact Or.inl ht
        · obtain ⟨l1p, l1s, tr, hp, hsh, hth, f1, f2, f3, f4, f5, f6, f7⟩ :=
            trigger_leg2_stub_spec _ _ _ htrig
          rw [hth, record_price_trade_history] at ht
          rcases List.mem_append.mp ht with hold | hnew
          · exact Or.inl hold
          · right
            have htr : t = tr := by simpa using hnew
            subst htr
            rw [record_price_shares] at f4 f5 f7
            refine ⟨by rw [f5, f1, f2, f3, f4], by rw [f6, f2], by rw [f7, f6, f5], f4, ?_⟩
            intro hshare
            rw [f7, f5, ← f4, ← hshare, f2]
      · have hx := Option.some.inj h
        subst hx
        rw [record_price_trade_history] at ht
        exact Or.inl ht

/-- C3 (amended): attach_round clears the price history, records the attach
time, sets the round and state WATCHING — but leaves the leg state fields
exactly as they were. -/
theorem attach_round_spec (s : Strategy) (r : BTCRound) (now : ℚ) :
    (s.attach_round r now).price_history = [] ∧
    (s.attach_round r now).round_started_at = some now ∧
    (s.attach_round r now).state = State.WATCHING ∧
    (s.attach_round r now).current_round = some r ∧
    (s.attach_round r now).leg1_outcome = s.leg1_outcome ∧
    (s.attach_round r now).leg1_token = s.leg1_token ∧
    (s.attach_round r now).leg1_entry_price = s.leg1_entry_price ∧
    (s.attach_round r now).leg1_shares = s.leg1_shares ∧
    (s.attach_round r now).leg2_token = s.leg2_token :=
  ⟨rfl, rfl, rfl, rfl, rfl, rfl, rfl, rfl, rfl⟩

/-- C3 (counterexample): attaching a fresh round to an engine holding leg-1
state does NOT clear the leg fields. -/
theorem attach_round_keeps_leg_fields_cex :
    (leg1FilledStrategy.attach_round sampleRound 50).leg1_entry_price =
      some (2/5) ∧
    (leg1FilledStrategy.attach_round sampleRound 50).leg1_entry_price ≠
      none ∧
    (leg1FilledStrategy.attach_round sampleRound 50).leg1_outcome ≠ none := by
  refine ⟨rfl, ?_, ?_⟩ <;>
    simp [Strategy.attach_round, leg1FilledStrategy, Strategy.init]

/-- C4: whenever at least two samples are recorded and the oldest in-window
price is non-zero, the computed drop is (oldest − current)/oldest clamped
at 0, and every returned drop is non-negative (the divisor is the oldest
in-window price, never the current one). -/
theorem compute_drop_spec (s : Strategy) (tid : String)
    (lastPt oldest : PricePoint)
    (h2 : 2 ≤ (historyLookup s.price_history tid).length)
    (hlast : (historyLookup s.price_history tid).getLast? = some lastPt)
    (hfind : (historyLookup s.price_history tid).find?
        (fun point => decide (lastPt.ts - s.drop_window_sec ≤ point.ts)) =
      some oldest)
    (hnz : oldest.price ≠ 0) :
    s.compute_drop tid =
      some (if 0 < (oldest.price - lastPt.price) / oldest.price
        then (oldest.price - lastPt.price) / oldest.price else 0) ∧
    ∀ d, s.compute_drop tid = some d → 0 ≤ d := by
  have heq : s.compute_drop tid =
      some (if 0 < (oldest.price - lastPt.price) / oldest.price
        then (oldest.price - lastPt.price) / oldest.price else 0) := by
    simp only [Strategy.compute_drop]
    rw [if_neg (Nat.not_lt.mpr h2), hlast]
    simp only
    rw [hfind]
    simp only
    rw [if_neg hnz]
    split <;> rfl
  refine ⟨heq, ?_⟩
  intro d hd
  rw [heq] at hd
  have hx := Option.some.inj hd
  subst hx
  split_ifs with hp
  · exact le_of_lt hp
  · exact le_refl 0

/-- C5: when the trader rejects the leg-1 buy, the engine reverts to
WATCHING and every other field — leg state, positions, history — is exactly
the pre-trigger state. -/
theorem trigger_leg1_failure_reverts (T : TraderFn) (s : Strategy)
    (token : MarketToken) (outcome : String)
    (hfail : (T token.token_id outcome s.shares token.price).success = false) :
    s.trigger_leg1 T token outcome =
      some { s with state := State.WATCHING } := by
  simp [Strategy.trigger_leg1, hfail]

/-- C6: a tick processed in WATCHING more than window_minutes after attach
records the price and drives the state to IDLE without triggering anything;
and in IDLE every further price update is a complete no-op. -/
theorem window_expiry_idle (T : TraderFn) (s : Strategy) (tid : String)
    (price ts now : ℚ) (r : BTCRound) (started : ℚ)
    (hen : s.enabled = true) (hw : s.state = State.WATCHING)
    (hr : s.current_round = some r) (h0 : s.round_started_at = some started)
    (hexp : s.window_minutes * 60 < now - started) :
    Strategy.on_price_update T now s tid price ts =
      some { s.record_price tid price ts with state := State.IDLE } ∧
    ∀ (s2 : Strategy) (tid2 : String) (p2 ts2 now2 : ℚ),
      s2.state = State.IDLE →
      Strategy.on_price_update T now2 s2 tid2 p2 ts2 = some s2 := by
  constructor
  · simp only [Strategy.on_price_update]
    have hcond : ¬(s.enabled = false ∨ s.state = State.IDLE) := by
      simp [hen, hw]
    rw [if_neg hcond]
    have h1 : (s.record_price tid price ts).state = State.WATCHING := by
      rw [record_price_state, hw]
    rw [if_pos h1]
    simp only [Strategy.handle_watching, record_price_current_round, hr,
      record_price_round_started_at, h0]
    rw [if_pos (by rw [record_price_window_minutes]; exact hexp)]
  · intro s2 tid2 p2 ts2 now2 hidle
    simp only [Strategy.on_price_update]
    rw [if_pos (Or.inr hidle)]

/-- C9: the stub trader always succeeds and fills exactly the requested
shares at exactly the given ceiling. -/
theorem stub_buy_market_fills_exactly (token_id outcome : String)
    (shares max_price : ℚ) :
    (TraderStub.buy_market token_id outcome shares max_price).success = true ∧
    (TraderStub.buy_market token_id outcome shares max_price).filled_price =
      some max_price ∧
    (TraderStub.buy_market token_id outcome shares max_price).filled_shares =
      some shares :=
  ⟨rfl, rfl, rfl⟩

/-- C10: a price update arriving while the strategy is disabled or IDLE
leaves the whole engine state unchanged. -/
theorem on_price_update_noop_when_disabled_or_idle (T : TraderFn) (now : ℚ)
    (s : Strategy) (tid : String) (price ts : ℚ)
    (h : s.enabled = false ∨ s.state = State.IDLE) :
    Strategy.on_price_update T now s tid price ts = some s := by
  simp only [Strategy.on_price_update]
  rw [if_pos h]

/-- A paired round is only kept while still active. -/
theorem pair_round_active (now : ℚ) (cid : String) (mkts : List RawMarket)
    (r : BTCRound) (h : pair_round now cid mkts = some r) :
    r.is_active now = true := by
  simp only [pair_round] at h
  rcases hf : mkts.find? (fun m => (extract_tokens m).1.isSome &&
      (extract_tokens m).2.isSome) with _ | m <;> simp only [hf] at h
  · exact Option.noConfusion h
  · rcases h1 : (extract_tokens m).1 with _ | up_tok <;> simp only [h1] at h
    · exact Option.noConfusion h
    · rcases h2 : (extract_tokens m).2 with _ | down_tok <;> simp only [h2] at h
      · exact Option.noConfusion h
      · split at h
        · have hx := Option.some.inj h
          subst hx
          assumption
        · exact Option.noConfusion h

/-- Membership in the per-group fold comes from the accumulator or from one
paired group. -/
theorem mem_rounds_fold (now : ℚ) (l : List (String × List RawMarket))
    (acc : List BTCRound) (r : BTCRound)
    (h : r ∈ l.foldl (roundsFoldStep now) acc) :
    r ∈ acc ∨ ∃ p ∈ l, pair_round now p.1 p.2 = some r := by
  induction l generalizing acc with
  | nil => exact Or.inl h
  | cons hd tl ih =>
    rw [List.foldl_cons] at h
    rcases ih _ h with hacc | ⟨p, hpmem, hpr⟩
    · unfold roundsFoldStep at hacc
      rcases hp : pair_round now hd.1 hd.2 with _ | r2 <;>
        simp only [hp] at hacc
      · exact Or.inl hacc
      · rcases List.mem_append.mp hacc with h1 | h2
        · exact Or.inl h1
        · have hr2 : r = r2 := by simpa using h2
          subst hr2
          exact Or.inr ⟨hd, List.mem_cons_self _ _, hp⟩
    · exact Or.inr ⟨p, List.mem_cons_of_mem _ hpmem, hpr⟩

/-- An active round with a finite end time ends strictly after `now`. -/
theorem is_active_end_time (r : BTCRound) (now t : ℚ)
    (ha : r.is_active now = true) (he : r.end_time = some t) : now < t := by
  simp only [BTCRound.is_active, he] at ha
  have hx := of_decide_eq_true ha
  rcases lt_max_iff.mp hx with h1 | h2
  · exact absurd h1 (lt_irrefl 0)
  · linarith

/-- C8: fetched rounds are sorted ascending by end time, only still-active
rounds are returned, and a fetch error yields the empty list. -/
theorem fetch_active_rounds_spec (ms : List RawMarket) (e : String) (now : ℚ)
    (h0 : 0 ≤ now) :
    List.Pairwise (fun a b : BTCRound => ∀ ta tb, a.end_time = some ta →
      b.end_time = some tb → ta ≤ tb)
      (fetch_active_rounds (Except.ok ms) now) ∧
    (∀ r ∈ fetch_active_rounds (Except.ok ms) now, ∀ t,
      r.end_time = some t → now < t) ∧
    fetch_active_rounds (Except.error e) now = [] := by
  have hmem : ∀ r ∈ fetch_active_rounds (Except.ok ms) now,
      r.is_active now = true := by
    intro r hr
    simp only [fetch_active_rounds] at hr
    rw [List.mem_insertionSort] at hr
    rcases mem_rounds_fold now _ [] r hr with h1 | ⟨p, _, hpr⟩
    · exact absurd h1 (List.not_mem_nil r)
    · exact pair_round_active _ _ _ _ hpr
  have hact : ∀ r ∈ fetch_active_rounds (Except.ok ms) now, ∀ t,
      r.end_time = some t → now < t := by
    intro r hr t ht
    exact is_active_end_time r now t (hmem r hr) ht
  refine ⟨?_, hact, rfl⟩
  have hsorted : List.Sorted roundLE (fetch_active_rounds (Except.ok ms) now) := by
    simp only [fetch_active_rounds]
    exact List.sorted_insertionSort roundLE _
  refine List.Pairwise.imp_of_mem ?_ hsorted
  intro a b ha hb hab ta tb hta htb
  have hat : now < ta := hact a ha ta hta
  have hbt : now < tb := hact b hb tb htb
  have hta0 : ta ≠ 0 := by
    intro hz
    rw [hz] at hat
    linarith
  have htb0 : tb ≠ 0 := by
    intro hz
    rw [hz] at hbt
    linarith
  have hka : sortKey a = (ta : WithTop ℚ) := by
    simp only [sortKey, hta]
    rw [if_neg hta0]
  have hkb : sortKey b = (tb : WithTop ℚ) := by
    simp only [sortKey, htb]
    rw [if_neg htb0]
  have hle : sortKey a ≤ sortKey b := hab
  rw [hka, hkb] at hle
  exact_mod_cast hle

/-- Concrete evaluation: the DOWN tick at 0.5 completes the sample trade. -/
theorem sampleTick_eval :
    Strategy.on_price_update TraderStub.buy_market 10 leg1FilledStrategy
      ("tokD") (1/2) 10 = some sampleTickResult := by
  norm_num [Strategy.on_price_update, leg1FilledStrategy, Strategy.init,
    Strategy.record_price, historyLookup, historyUpdate,
    Strategy.handle_leg1_filled, Strategy.trigger_leg2,
    TraderStub.buy_market, Strategy.reset_round_state, sampleRound,
    sampleTickResult, sampleTrade]
  rfl

/-- Concrete evaluation: triggering leg 1 on the UP token records the
snapshot price 0.7 as the entry price. -/
theorem c7_eval :
    c7Strategy.trigger_leg1 TraderStub.buy_market sampleRound.up_token
      ("UP") = some c7Result := by
  rfl

/-- C7 (amended): leg-1 execution flips the state to LEG1_FILLED (kept on
success) and queries the trader only at ceiling `token.price`, the round
snapshot field — two traders that agree at that single point produce the
same engine state. -/
theorem trigger_leg1_snapshot_price (T1 T2 : TraderFn) (s : Strategy)
    (token : MarketToken) (outcome : String) (s' : Strategy)
    (hagree : T1 token.token_id outcome s.shares token.price =
      T2 token.token_id outcome s.shares token.price)
    (hsucc : (T1 token.token_id outcome s.shares token.price).success = true)
    (h : s.trigger_leg1 T1 token outcome = some s') :
    s.trigger_leg1 T2 token outcome = some s' ∧
    s'.state = State.LEG1_FILLED ∧
    s'.leg1_entry_price =
      (T1 token.token_id outcome s.shares token.price).filled_price := by
  have hne : ¬((T1 token.token_id outcome s.shares token.price).success
      = false) := by
    rw [hsucc]
    simp
  simp only [Strategy.trigger_leg1] at h ⊢
  rw [← hagree]
  rw [if_neg hne] at h ⊢
  rcases hr : s.current_round with _ | round_ <;> simp only [hr] at h ⊢
  · exact Option.noConfusion h
  · have hx := Option.some.inj h
    subst hx
    exact ⟨rfl, rfl, rfl⟩

/-- C7 (counterexample): the ceiling actually passed to the trader (and
hence, with the stub, the recorded entry price) is the snapshot price 0.7,
while the most recently recorded tick price of the triggering token is
0.4. -/
theorem leg1_ceiling_not_last_recorded_cex :
    c7Strategy.trigger_leg1 TraderStub.buy_market sampleRound.up_token
      ("UP") = some c7Result ∧
    c7Result.leg1_entry_price = some (7/10) ∧
    (historyLookup c7Strategy.price_history
        (sampleRound.up_token.token_id)).getLast?.map (fun p => p.price) =
      some (2/5) ∧
    ((7:ℚ)/10) ≠ 2/5 := by
  refine ⟨c7_eval, rfl, rfl, by norm_num⟩

/-- C1 witness at the sample LEG1_FILLED engine and a DOWN tick at 0.5: the
completed sample trade has non-negative profit. -/
theorem completed_trade_profit_nonneg_witness :
    leg1FilledStrategy.hedge_sum < 1 ∧ (0:ℚ) ≤ sampleTrade.profit := by
  refine ⟨by norm_num [leg1FilledStrategy, Strategy.init], ?_⟩
  have h := completed_trade_profit_nonneg leg1FilledStrategy ("tokD") (1/2)
    10 10 sampleTickResult
    (by norm_num [leg1FilledStrategy, Strategy.init])
    (by norm_num [leg1FilledStrategy, Strategy.init])
    rfl
    sampleTick_eval
    sampleTrade (List.mem_singleton.mpr rfl)
  exact h.resolve_left (List.not_mem_nil sampleTrade)

/-- C2 witness at the sample LEG1_FILLED engine and a DOWN tick at 0.5: the
completed sample trade satisfies the accounting identities. -/
theorem completed_trade_accounting_witness :
    sampleTrade.combined_cost = sampleTrade.leg1_price *
      sampleTrade.leg1_shares +
      sampleTrade.leg2_price * sampleTrade.leg2_shares ∧
    sampleTrade.expected_payout = sampleTrade.leg1_shares ∧
    sampleTrade.profit = sampleTrade.expected_payout -
      sampleTrade.combined_cost ∧
    sampleTrade.leg2_shares = leg1FilledStrategy.shares ∧
    sampleTrade.profit = leg1FilledStrategy.shares -
      sampleTrade.combined_cost := by
  have h := (completed_trade_accounting leg1FilledStrategy ("tokD") (1/2)
    10 10 sampleTickResult sampleTick_eval sampleTrade
    (List.mem_singleton.mpr rfl)).resolve_left
    (List.not_mem_nil sampleTrade)
  exact ⟨h.1, h.2.1, h.2.2.1, h.2.2.2.1, h.2.2.2.2 rfl⟩

/-- C4 witness on the two-sample history 0.6 then 0.4: the drop evaluates
to the clamped relative drop and is non-negative. -/
theorem compute_drop_spec_witness :
    c7Strategy.compute_drop ("tokU") =
      some (if 0 < (((3:ℚ)/5) - 2/5) / (3/5)
        then (((3:ℚ)/5) - 2/5) / (3/5) else 0) ∧
    (0:ℚ) ≤ (if 0 < (((3:ℚ)/5) - 2/5) / (3/5)
        then (((3:ℚ)/5) - 2/5) / (3/5) else 0) := by
  have h := compute_drop_spec c7Strategy ("tokU") { price := 2/5, ts := 1 }
    { price := 3/5, ts := 0 }
    (by decide)
    rfl
    (by norm_num [historyLookup, c7Strategy, Strategy.init, List.find?])
    (by norm_num)
  exact ⟨h.1, h.2 _ h.1⟩

/-- C5 witness with an always-failing trader. -/
theorem trigger_leg1_failure_reverts_witness :
    watchingStrategy.trigger_leg1 failTrader sampleRound.up_token ("UP") =
      some { watchingStrategy with state := State.WATCHING } :=
  trigger_leg1_failure_reverts failTrader watchingStrategy
    sampleRound.up_token ("UP") rfl

/-- C6 witness: a tick 200s after attach with a 2-minute window goes IDLE,
and a tick at an enabled-but-IDLE engine is a no-op. -/
theorem window_expiry_idle_witness :
    Strategy.on_price_update TraderStub.buy_market 200 watchingStrategy
      ("tokU") (1/2) 200 =
      some { watchingStrategy.record_price ("tokU") (1/2) 200 with
        state := State.IDLE } ∧
    Strategy.on_price_update TraderStub.buy_market 5
      { Strategy.init with enabled := true } ("y") 1 1 =
      some { Strategy.init with enabled := true } := by
  have h := window_expiry_idle TraderStub.buy_market watchingStrategy
    ("tokU") (1/2) 200 200 sampleRound 0 rfl rfl rfl rfl
    (by norm_num [watchingStrategy, Strategy.init])
  exact ⟨h.1, h.2 { Strategy.init with enabled := true } ("y") 1 1 5 rfl⟩

/-- C7 witness: the stub and a trader agreeing with it at the snapshot
price produce the same post-trigger state. -/
theorem trigger_leg1_snapshot_price_witness :
    c7Strategy.trigger_leg1 snapTrader sampleRound.up_token ("UP") =
      some c7Result ∧
    c7Result.state = State.LEG1_FILLED ∧
    c7Result.leg1_entry_price =
      (TraderStub.buy_market sampleRound.up_token.token_id ("UP")
        c7Strategy.shares sampleRound.up_token.price).filled_price :=
  trigger_leg1_snapshot_price TraderStub.buy_market snapTrader c7Strategy
    sampleRound.up_token ("UP") c7Result
    (by norm_num [snapTrader, sampleRound])
    rfl
    c7_eval

/-- C8 witness on two concrete BTC markets fetched at time 10: the result
is sorted by end time and an errored fetch is empty. -/
theorem fetch_active_rounds_spec_witness :
    List.Pairwise (fun a b : BTCRound => ∀ ta tb, a.end_time = some ta →
      b.end_time = some tb → ta ≤ tb)
      (fetch_active_rounds (Except.ok sampleMarkets) 10) ∧
    fetch_active_rounds (Except.error ("boom")) 10 = [] := by
  have h := fetch_active_rounds_spec sampleMarkets ("boom") 10 (by norm_num)
  exact ⟨h.1, h.2.2⟩

/-- C10 witness: the freshly initialised engine is disabled, so a tick is a
no-op. -/
theorem on_price_update_noop_witness :
    Strategy.on_price_update TraderStub.buy_market 0 Strategy.init ("x") 1 1 =
      some Strategy.init :=
  on_price_update_noop_when_disabled_or_idle TraderStub.buy_market 0
    Strategy.init ("x") 1 1 (Or.inl rfl)
